import Mathlib

/-!
Verification development for the n8n Amazon Nova Act node
(`src/nodes/NovaAct/NovaAct.node.ts`).

The node's `NovaActHelper.executeScript` builds a shell command embedding the
API key, runs it through `promisify(exec)` with a millisecond timeout, turns
non-WARNING stderr into an error, parses stdout as JSON with a raw-passthrough
fallback, and wraps every thrown error into a `NodeOperationError` whose
message is `Failed to execute Nova Act automation: <inner message>`.
`NovaAct.execute` iterates the input items, validates per operation, invokes
the helper, and pushes one output record per handled item; with
continue-on-fail active a thrown error becomes a record
`success = false, error = message`.

The embedding models JavaScript strings with Lean `String` but re-implements
the JavaScript string operations (`trim`, `split`, `includes`, `join`) over
`String.data` so every definition reduces in the kernel.  `JSON.parse` and
`JSON.stringify` are runtime primitives of the JavaScript engine, so they are
parameters of the embedding (`jsonParse`, `stringify`): the node's control
flow depends only on whether `JSON.parse` succeeds and on the shape of the
parsed value.  `child_process.exec` is modelled by `execModel` following
Node's documented semantics: `options.timeout` is validated up front and a
negative value raises `ERR_OUT_OF_RANGE` before any process is spawned; a
zero timeout disables the kill timer; with a positive timeout a child that
has not exited when it elapses is killed and the promise rejects; on
non-zero exit the promise rejects; an exec rejection error's `message` is
`Command failed: <command>` followed by the captured stderr.
-/

namespace NovaActSpec

/-- JavaScript values as they occur in the node: the results of `JSON.parse`
and the objects the node constructs. -/
inductive JsVal where
  | jnull
  | jbool (b : Bool)
  | jnum (n : Int)
  | jstr (s : String)
  | jarr (xs : List JsVal)
  | jobj (fields : List (String × JsVal))

/-- Lookup of a key among an object's fields, first match wins. -/
def lookupField : List (String × JsVal) → String → Option JsVal
  | [], _ => none
  | (k2, v2) :: rest, k => if k2 = k then some v2 else lookupField rest k

/-- Property access `v.k` on a JavaScript value: `some` when the field is
present on an object, `none` meaning `undefined`. -/
def getField (v : JsVal) (k : String) : Option JsVal :=
  match v with
  | .jobj fields => lookupField fields k
  | _ => none

/-- JavaScript truthiness of a defined value. -/
def truthy : JsVal → Bool
  | .jnull => false
  | .jbool b => b
  | .jnum n => n != 0
  | .jstr s => s != ""
  | .jarr _ => true
  | .jobj _ => true

/-- JavaScript `x || d` where `x` is a possibly-undefined property value. -/
def jsOr (x : Option JsVal) (d : JsVal) : JsVal :=
  match x with
  | some v => if truthy v then v else d
  | none => d

/-- Whitespace test used by JavaScript `trim`; ASCII whitespace suffices for
the strings the node handles. -/
def isWs (c : Char) : Bool :=
  c = ' ' ∨ c = '\t' ∨ c = '\n' ∨ c = '\r'

/-- JavaScript `s.trim()`, implemented over the character list so that it
reduces in the kernel. -/
def jsTrim (s : String) : String :=
  String.mk (((s.data.dropWhile isWs).reverse.dropWhile isWs).reverse)

/-- Split of a character list at a separator character; parts keep their
order and empty parts are kept, matching JavaScript `split`. -/
def splitChars (sep : Char) : List Char → List (List Char)
  | [] => [[]]
  | c :: cs =>
      match splitChars sep cs with
      | [] => [[]]
      | part :: parts =>
          if c = sep then [] :: part :: parts else (c :: part) :: parts

/-- JavaScript `s.split(c)` for a one-character separator. -/
def jsSplit (s : String) (sep : Char) : List String :=
  (splitChars sep s.data).map String.mk

/-- Substring test over character lists. -/
def subOccurs (sub : List Char) : List Char → Bool
  | [] => sub.isEmpty
  | c :: cs => List.isPrefixOf sub (c :: cs) || subOccurs sub cs

/-- JavaScript `s.includes(sub)`. -/
def jsIncludes (s sub : String) : Bool :=
  subOccurs sub.data s.data

/-- Single-quote character used when the helper wraps the serialized params. -/
def squote : String := String.mk [Char.ofNat 39]

/-- Double-quote character used when the helper wraps the API key. -/
def dquote : String := "\""

/-- Behaviour of one external process invocation, as the shell would run it:
how long it runs (`none` means it never exits), its exit code, and what it
writes to stdout and stderr. -/
structure ProcBehavior where
  runtime : Option Nat
  exitCode : Nat
  stdout : String
  stderr : String

/-- Outcome of an awaited `promisify(exec)` call: the promise resolves, or
rejects with an error message (with `killed` set when the timeout fired), or
the option validation raises `ERR_OUT_OF_RANGE` before any process is
spawned, or the call never settles (possible only with a zero timeout, which
disables the kill timer). -/
inductive ExecOutcome where
  | hang
  | resolved (elapsedMs : Nat) (stdout stderr : String)
  | rejected (elapsedMs : Nat) (message : String) (killed : Bool)
  | rangeError (message : String)

/-- Message of a `child_process` rejection error: Node documents it as
`Command failed: <command>` followed by the captured stderr. -/
def cmdFailedMsg (cmd stderrText : String) : String :=
  "Command failed: " ++ cmd ++ "\n" ++ stderrText

/-- Message of the `ERR_OUT_OF_RANGE` error Node's exec option validation
raises for a negative `options.timeout`, following Node's format. -/
def rangeErrMsg (timeoutMs : Int) : String :=
  "The value of \"timeout\" is out of range. It must be an unsigned integer. Received "
    ++ toString timeoutMs

/-- Model of `promisify(exec)(cmd, params)` with a millisecond timeout, after
Node's documented semantics: `validateTimeout` rejects a negative
`options.timeout` with `ERR_OUT_OF_RANGE` before anything is spawned; with a
positive timeout, a child that has not exited when the timeout elapses is
killed and the promise rejects with `killed = true`; a child that exits
non-zero rejects with `killed = false`; a child that exits zero resolves
with its stdout and stderr.  A zero timeout is valid but disables the kill
timer, so a child that never exits never settles. -/
def execModel (env : String → ProcBehavior) (timeoutMs : Int) (cmd : String) :
    ExecOutcome :=
  if timeoutMs < 0 then
    .rangeError (rangeErrMsg timeoutMs)
  else
    match (env cmd).runtime with
    | none =>
        if 0 < timeoutMs then
          .rejected timeoutMs.toNat (cmdFailedMsg cmd (env cmd).stderr) true
        else
          .hang
    | some r =>
        if 0 < timeoutMs ∧ timeoutMs < (r : Int) then
          .rejected timeoutMs.toNat (cmdFailedMsg cmd (env cmd).stderr) true
        else if (env cmd).exitCode = 0 then
          .resolved r (env cmd).stdout (env cmd).stderr
        else
          .rejected r (cmdFailedMsg cmd (env cmd).stderr) false

/-- Number of external processes spawned by one exec call: the up-front
option validation means a negative timeout spawns nothing; otherwise exactly
one process is spawned. -/
def invokeSpawns (timeoutMs : Int) : Nat :=
  if timeoutMs < 0 then 0 else 1

/-- Params object handed to `NovaActHelper.executeScript`.  The node builds
one of two shapes (perform-actions or extract-data); optional fields model
properties absent from the object.  `timeout` is `Option` so the helper's
`params.timeout || 300` fallback covers both an absent property and the
falsy value `0`. -/
structure ScriptParams where
  commands : Option String := none
  starting_url : Option String := none
  navigation_commands : Option String := none
  data_schema : Option JsVal := none
  headless : Bool := true
  timeout : Option Int := none

/-- Runtime collaborators of the embedding: the JavaScript engine's
`JSON.parse` (`none` when it throws), its `JSON.stringify`, the behaviour of
the shell for each command line, and `__dirname` of the compiled node. -/
structure Runtime where
  jsonParse : String → Option JsVal
  stringify : ScriptParams → String
  env : String → ProcBehavior
  dirname : String

/-- Model of `path.join(__dirname, fileName)`. -/
def joinPath (dir fileName : String) : String :=
  dir ++ "/" ++ fileName

/-- Argument list assembled by `executeScript` before joining with spaces:
`python3 <script> --api_key "<key>" --operation <op> --params '<json>'`. -/
def buildArgs (rt : Runtime) (apiKey operation : String)
    (params : ScriptParams) : List String :=
  [ "python3",
    joinPath rt.dirname "nova_act_runner.py",
    "--api_key", dquote ++ apiKey ++ dquote,
    "--operation", operation,
    "--params", squote ++ rt.stringify params ++ squote ]

/-- Shell command string `args.join(' ')` run by the helper. -/
def buildCommand (rt : Runtime) (apiKey operation : String)
    (params : ScriptParams) : String :=
  String.intercalate " " (buildArgs rt apiKey operation params)

/-- Timeout in seconds used by the helper: `params.timeout || 300`. -/
def effTimeoutSec (t : Option Int) : Int :=
  match t with
  | none => 300
  | some v => if v = 0 then 300 else v

/-- Result of one `NovaActHelper.executeScript` call: the returned value, or
the thrown `NodeOperationError` (with the model keeping the elapsed wall
clock and whether the child was killed by the timeout), or no return at all
when the awaited promise never settles. -/
inductive ScriptResult where
  | hang
  | ok (elapsedMs : Nat) (value : JsVal)
  | nodeError (elapsedMs : Nat) (message : String) (killed : Bool)

/-- Message of the `NodeOperationError` thrown by the helper's catch block. -/
def wrapMsg (inner : String) : String :=
  "Failed to execute Nova Act automation: " ++ inner

/-- Embedding of `NovaActHelper.executeScript`.  It builds the command,
awaits `pExec` with `(params.timeout || 300) * 1000` milliseconds, throws on
non-WARNING stderr, parses stdout as JSON and falls back to
`stdout = trimmed, stderr = stderr || null` when parsing fails; every thrown
error is rethrown as a `NodeOperationError` with a wrapped message. -/
def executeScript (rt : Runtime) (apiKey operation : String)
    (params : ScriptParams) : ScriptResult :=
  match execModel rt.env (effTimeoutSec params.timeout * 1000)
      (buildCommand rt apiKey operation params) with
  | .hang => .hang
  | .rangeError m => .nodeError 0 (wrapMsg m) false
  | .rejected e m k => .nodeError e (wrapMsg m) k
  | .resolved e out errText =>
      if errText != "" && !(jsIncludes errText "WARNING") then
        .nodeError e (wrapMsg ("Nova Act script error: " ++ errText)) false
      else
        match rt.jsonParse (jsTrim out) with
        | some v => .ok e v
        | none =>
            .ok e (JsVal.jobj
              [ ("stdout", .jstr (jsTrim out)),
                ("stderr", if errText = "" then .jnull else .jstr errText) ])

/-- Node parameters of one input item, as `execute` reads them with
`getNodeParameter` (defaults applied by the host when unset). -/
structure ItemParams where
  resource : String := "browser"
  operation : String := "performActions"
  startingUrl : String := ""
  headless : Bool := true
  timeout : Int := 300
  commands : String := ""
  dataSchema : String := "\x7b\x7d"
  navigationCommands : String := ""

/-- Output record pushed by `execute`; `none` on an optional field models a
property whose assigned value is `undefined`. -/
structure OutJson where
  success : Bool
  result : Option JsVal := none
  screenshots : Option JsVal := none
  executedCommands : Option (List String) := none
  extractedData : Option JsVal := none
  url : Option String := none
  error : Option String := none

/-- What processing one item does before the orchestrator's catch block:
push one record, push nothing (no branch matched), throw an error message,
or never return.  `spawns` counts the external processes started for the
item. -/
inductive ItemStep where
  | hang (spawns : Nat)
  | push (rec : OutJson) (spawns : Nat)
  | skip (spawns : Nat)
  | thrown (message : String) (spawns : Nat)

/-- The filter `commands.split(.n.).filter(cmd => cmd.trim())`: lines whose
trimmed text is non-empty, kept untrimmed. -/
def executedOf (commands : String) : List String :=
  (jsSplit commands '\n').filter (fun c => jsTrim c != "")

/-- Embedding of the body of the per-item `try` block of `NovaAct.execute`:
validation, invocation and record construction for one item. -/
def processItem (rt : Runtime) (apiKey : String) (it : ItemParams) :
    ItemStep :=
  if it.resource = "browser" then
    if it.operation = "performActions" then
      if jsTrim it.commands = "" then
        .thrown "No commands provided" 0
      else
        match executeScript rt apiKey "perform_actions"
          { commands := some (jsTrim it.commands),
            starting_url := some it.startingUrl,
            headless := it.headless,
            timeout := some it.timeout } with
        | .hang => .hang (invokeSpawns (effTimeoutSec (some it.timeout) * 1000))
        | .nodeError _ m _ =>
            .thrown m (invokeSpawns (effTimeoutSec (some it.timeout) * 1000))
        | .ok _ v =>
            .push
              { success := true,
                result := getField v "stdout",
                screenshots := some (jsOr (getField v "screenshots") (.jarr [])),
                executedCommands := some (executedOf it.commands) }
              (invokeSpawns (effTimeoutSec (some it.timeout) * 1000))
    else if it.operation = "extractData" then
      if jsTrim it.startingUrl = "" then
        .thrown "Starting URL is required for data extraction" 0
      else
        match rt.jsonParse it.dataSchema with
        | none => .thrown "Invalid JSON schema provided" 0
        | some parsedSchema =>
            match executeScript rt apiKey "extract_data"
              { starting_url := some it.startingUrl,
                navigation_commands := some (jsTrim it.navigationCommands),
                data_schema := some parsedSchema,
                headless := it.headless,
                timeout := some it.timeout } with
            | .hang => .hang (invokeSpawns (effTimeoutSec (some it.timeout) * 1000))
            | .nodeError _ m _ =>
                .thrown m (invokeSpawns (effTimeoutSec (some it.timeout) * 1000))
            | .ok _ v =>
                .push
                  { success := true,
                    extractedData := some (jsOr (getField v "extracted_data") (.jobj [])),
                    screenshots := some (jsOr (getField v "screenshots") (.jarr [])),
                    url := some it.startingUrl }
                  (invokeSpawns (effTimeoutSec (some it.timeout) * 1000))
    else
      .skip 0
  else
    .skip 0

/-- Count of external processes spawned while handling one item. -/
def itemSpawns (rt : Runtime) (apiKey : String) (it : ItemParams) : Nat :=
  match processItem rt apiKey it with
  | .hang n => n
  | .push _ n => n
  | .skip n => n
  | .thrown _ n => n

/-- Record appended for one item once the catch block has run in continue
mode: the pushed record, or the error record for a thrown error.  The skip
and hang cases append nothing and are excluded by the theorems that use
this function. -/
def itemRecord (rt : Runtime) (apiKey : String) (it : ItemParams) : OutJson :=
  match processItem rt apiKey it with
  | .push r _ => r
  | .thrown m _ => { success := false, error := some m }
  | _ => { success := false }

/-- Result of the whole `execute` loop: normal return with the pushed
records, an abort when an error propagates in fail-fast mode, or no return
when an item hangs. -/
inductive BatchResult where
  | done (outputs : List OutJson)
  | aborted (message : String)
  | hung

/-- Prepend an already-pushed record to the result of the remaining loop. -/
def consOut (r : OutJson) : BatchResult → BatchResult
  | .done outs => .done (r :: outs)
  | .aborted m => .aborted m
  | .hung => .hung

/-- Embedding of the `for` loop of `NovaAct.execute` over the input items:
per item run the try block; on a thrown error, continue-on-fail pushes
`success = false, error = message` and moves on, fail-fast rethrows. -/
def runItems (rt : Runtime) (apiKey : String) (continueOnFail : Bool) :
    List ItemParams → BatchResult
  | [] => .done []
  | it :: rest =>
      match processItem rt apiKey it with
      | .hang _ => .hung
      | .skip _ => runItems rt apiKey continueOnFail rest
      | .push r _ => consOut r (runItems rt apiKey continueOnFail rest)
      | .thrown m _ =>
          if continueOnFail then
            consOut { success := false, error := some m }
              (runItems rt apiKey continueOnFail rest)
          else
            .aborted m

/-- Records returned by a completed `execute` call; an aborted or hung run
returns none. -/
def BatchResult.outputs : BatchResult → List OutJson
  | .done outs => outs
  | .aborted _ => []
  | .hung => []

/-- Item whose resource and operation reach one of the two handled branches
of `execute`. -/
def handledItem (it : ItemParams) : Prop :=
  it.resource = "browser" ∧
    (it.operation = "performActions" ∨ it.operation = "extractData")

/-- Predicate on the environment: the process behind `cmd` has not exited
when the budget elapses. -/
def overruns (env : String → ProcBehavior) (cmd : String)
    (budgetMs : Int) : Prop :=
  match (env cmd).runtime with
  | none => True
  | some r => budgetMs < (r : Int)

/-- Engine success message used by the spec's round-trip scenario. -/
def okMsg : String :=
  "\x7b\"success\":true,\"result\":\"ok\",\"screenshots\":[]\x7d"

/-- Parsed form of `okMsg`. -/
def okVal : JsVal :=
  .jobj [("success", .jbool true), ("result", .jstr "ok"),
         ("screenshots", .jarr [])]

/-- Text of an empty JSON object, the shape of the default data schema. -/
def emptyObjText : String := "\x7b\x7d"

/-- Concrete `JSON.parse` used by the fixtures: parses the two JSON texts the
scenarios need and fails on everything else. -/
def parseFix : String → Option JsVal := fun s =>
  if s = okMsg then some okVal
  else if s = emptyObjText then some (.jobj [])
  else none

/-- Fixture runtime: engine exits zero with the round-trip success message. -/
def rtOk : Runtime :=
  { jsonParse := parseFix,
    stringify := fun _ => "P",
    env := fun _ =>
      { runtime := some 5, exitCode := 0, stdout := okMsg, stderr := "" },
    dirname := "/dist/nodes/NovaAct" }

/-- Fixture runtime: engine exits code 1 with stderr `auth failed`. -/
def rtAuthFail : Runtime :=
  { rtOk with env := fun _ =>
      { runtime := some 5, exitCode := 1, stdout := "", stderr := "auth failed" } }

/-- Fixture runtime: engine never exits. -/
def rtHangs : Runtime :=
  { rtOk with env := fun _ =>
      { runtime := none, exitCode := 0, stdout := "", stderr := "" } }

/-- Fixture runtime: engine exits zero with unparseable stdout. -/
def rtGarbage : Runtime :=
  { rtOk with env := fun _ =>
      { runtime := some 5, exitCode := 0, stdout := "garbage!!", stderr := "" } }

/-- Fixture runtime: engine exits zero with a valid success message on stdout
and a non-WARNING diagnostic line on stderr. -/
def rtNotice : Runtime :=
  { rtOk with env := fun _ =>
      { runtime := some 5, exitCode := 0, stdout := okMsg,
        stderr := "deprecation notice" } }

/-- Perform-actions item with one command line. -/
def itGo : ItemParams := { commands := "go" }

/-- Item whose operation matches no handled branch. -/
def itUnknownOp : ItemParams := { operation := "doSomethingElse" }

/-- Extract-data item with a URL and the default (empty-object) schema. -/
def itExtractX : ItemParams :=
  { operation := "extractData", startingUrl := "https://x",
    dataSchema := emptyObjText }

mutual

/-- String leaves of a JavaScript value, used to state that a text never
occurs anywhere in an outcome. -/
def jsStrings : JsVal → List String
  | .jnull => []
  | .jbool _ => []
  | .jnum _ => []
  | .jstr s => [s]
  | .jarr xs => jsStringsArr xs
  | .jobj fs => jsStringsObj fs

/-- String leaves of an array of JavaScript values. -/
def jsStringsArr : List JsVal → List String
  | [] => []
  | v :: vs => jsStrings v ++ jsStringsArr vs

/-- String leaves of the fields of a JavaScript object. -/
def jsStringsObj : List (String × JsVal) → List String
  | [] => []
  | (_, v) :: fs => jsStrings v ++ jsStringsObj fs

end

/-- String leaves of an optional JavaScript value. -/
def optStrings : Option JsVal → List String
  | some v => jsStrings v
  | none => []

/-- Every string carried anywhere in an output record. -/
def outStrings (r : OutJson) : List String :=
  optStrings r.result ++ optStrings r.screenshots ++
    r.executedCommands.getD [] ++ optStrings r.extractedData ++
    (match r.url with | some u => [u] | none => []) ++
    (match r.error with | some m => [m] | none => [])

/-- Record pushed for `itGo` under `rtOk`: the parsed engine message has no
`stdout` property, so `result` is assigned `undefined`. -/
def recGo : OutJson :=
  { success := true, result := none, screenshots := some (.jarr []),
    executedCommands := some ["go"] }

/-- Record pushed for `itExtractX` under `rtGarbage`: the raw stdout text is
replaced by the empty-object default. -/
def recDropped : OutJson :=
  { success := true, extractedData := some (.jobj []),
    screenshots := some (.jarr []), url := some "https://x" }

/-- Message of the error thrown for `itGo` under `rtAuthFail` with the
secret `SECRET_KEY_123`: the exec rejection echoes the full command line. -/
def leakMsg : String :=
  wrapMsg (cmdFailedMsg
    (buildCommand rtAuthFail "SECRET_KEY_123" "perform_actions"
      { commands := some "go", starting_url := some "", headless := true,
        timeout := some 300 })
    "auth failed")

/-- C9: in the exec-based iteration, an item whose operation matches no
handled branch is silently skipped: nothing is pushed and no error is
raised, so in continue mode the output sequence is shorter than the input
sequence. -/
theorem unknown_operation_silently_skipped :
    processItem rtOk "KEY" itUnknownOp = .skip 0 ∧
    runItems rtOk "KEY" true [itUnknownOp] = .done [] ∧
    (runItems rtOk "KEY" true [itUnknownOp]).outputs.length <
      [itUnknownOp].length := by
  refine ⟨rfl, rfl, ?_⟩
  show (0 : Nat) < 1
  decide

/-- C7: a perform-actions item with a whitespace-only command list and an
extract-data item with an empty starting URL each fail validation with a
message naming the offending field, and no external process is spawned for
the item. -/
theorem empty_field_validation_no_spawn (rt : Runtime) (apiKey : String)
    (it1 it2 : ItemParams)
    (h1r : it1.resource = "browser") (h1o : it1.operation = "performActions")
    (h1c : jsTrim it1.commands = "")
    (h2r : it2.resource = "browser") (h2o : it2.operation = "extractData")
    (h2u : jsTrim it2.startingUrl = "") :
    processItem rt apiKey it1 = .thrown "No commands provided" 0 ∧
    jsIncludes "No commands provided" "commands" = true ∧
    itemSpawns rt apiKey it1 = 0 ∧
    processItem rt apiKey it2 =
      .thrown "Starting URL is required for data extraction" 0 ∧
    jsIncludes "Starting URL is required for data extraction" "Starting URL" = true ∧
    itemSpawns rt apiKey it2 = 0 := by
  have hp1 : processItem rt apiKey it1 = .thrown "No commands provided" 0 := by
    simp [processItem, h1r, h1o, h1c]
  have hp2 : processItem rt apiKey it2 =
      .thrown "Starting URL is required for data extraction" 0 := by
    simp [processItem, h2r, h2o, h2u]
  refine ⟨hp1, by decide, ?_, hp2, by decide, ?_⟩
  · simp [itemSpawns, hp1]
  · simp [itemSpawns, hp2]

/-- Witness for the C7 theorem at concrete items with whitespace-only
commands and an empty starting URL. -/
theorem empty_field_validation_no_spawn_witness :
    processItem rtOk "KEY" { commands := "  " } = .thrown "No commands provided" 0 ∧
    jsIncludes "No commands provided" "commands" = true ∧
    itemSpawns rtOk "KEY" { commands := "  " } = 0 ∧
    processItem rtOk "KEY" { operation := "extractData" } =
      .thrown "Starting URL is required for data extraction" 0 ∧
    jsIncludes "Starting URL is required for data extraction" "Starting URL" = true ∧
    itemSpawns rtOk "KEY" { operation := "extractData" } = 0 :=
  empty_field_validation_no_spawn rtOk "KEY" { commands := "  " }
    { operation := "extractData" } rfl rfl (by decide) rfl rfl (by decide)

/-- C8: an extract-data item whose schema text does not parse as JSON fails
validation with the schema error before any external process is spawned. -/
theorem malformed_schema_no_spawn (rt : Runtime) (apiKey : String)
    (it : ItemParams)
    (hr : it.resource = "browser") (ho : it.operation = "extractData")
    (hu : jsTrim it.startingUrl ≠ "")
    (hp : rt.jsonParse it.dataSchema = none) :
    processItem rt apiKey it = .thrown "Invalid JSON schema provided" 0 ∧
    itemSpawns rt apiKey it = 0 := by
  have hpi : processItem rt apiKey it = .thrown "Invalid JSON schema provided" 0 := by
    simp [processItem, hr, ho, hu, hp]
  exact ⟨hpi, by simp [itemSpawns, hpi]⟩

/-- Witness for the C8 theorem: a schema text the fixture parser rejects. -/
theorem malformed_schema_no_spawn_witness :
    processItem rtOk "KEY"
      { operation := "extractData", startingUrl := "https://x",
        dataSchema := "not json" } = .thrown "Invalid JSON schema provided" 0 ∧
    itemSpawns rtOk "KEY"
      { operation := "extractData", startingUrl := "https://x",
        dataSchema := "not json" } = 0 :=
  malformed_schema_no_spawn rtOk "KEY"
    { operation := "extractData", startingUrl := "https://x",
      dataSchema := "not json" } rfl rfl (by decide) rfl

/-- C10 counterexample: a perform-actions item with timeout `-7` is not
silently accepted: the negative timeout reaches exec's option validation,
which raises `ERR_OUT_OF_RANGE` before anything is spawned, so the item
throws a timeout range error with spawn count zero. -/
theorem negative_timeout_rejected_before_spawn :
    processItem rtOk "KEY" { commands := "go", timeout := -7 } =
      .thrown (wrapMsg (rangeErrMsg (-7 * 1000))) 0 ∧
    itemSpawns rtOk "KEY" { commands := "go", timeout := -7 } = 0 :=
  ⟨rfl, rfl⟩

/-- C10 (amended): a timeout that is absent or `0` is silently replaced by
300 seconds by the helper's fallback, and the node itself never validates
the timeout: a perform-actions item with non-empty commands and a
non-negative timeout always spawns the process; a negative timeout however
reaches exec unchanged and its option validation rejects it with the
`ERR_OUT_OF_RANGE` message before any process is spawned, surfacing as a
wrapped per-item error. -/
theorem timeout_fallback_and_range_check (rt : Runtime) (apiKey : String)
    (it : ItemParams)
    (hr : it.resource = "browser") (ho : it.operation = "performActions")
    (hc : jsTrim it.commands ≠ "") :
    effTimeoutSec none = 300 ∧
    effTimeoutSec (some 0) = 300 ∧
    (0 ≤ it.timeout → itemSpawns rt apiKey it = 1) ∧
    (it.timeout < 0 →
      processItem rt apiKey it =
        .thrown (wrapMsg (rangeErrMsg (it.timeout * 1000))) 0 ∧
      itemSpawns rt apiKey it = 0) := by
  refine ⟨rfl, rfl, ?_, ?_⟩
  · intro hge
    have hnneg : ¬ (effTimeoutSec (some it.timeout) * 1000 < 0) := by
      simp only [effTimeoutSec]
      by_cases h0 : it.timeout = 0
      · rw [if_pos h0]
        omega
      · rw [if_neg h0]
        omega
    have hsp : invokeSpawns (effTimeoutSec (some it.timeout) * 1000) = 1 := by
      simp [invokeSpawns, hnneg]
    simp only [itemSpawns, processItem, hr, ho, String.reduceEq, reduceIte,
      if_neg hc, hsp]
    rcases executeScript rt apiKey "perform_actions"
        { commands := some (jsTrim it.commands),
          starting_url := some it.startingUrl,
          headless := it.headless, timeout := some it.timeout } <;> rfl
  · intro hlt
    have heff : effTimeoutSec (some it.timeout) = it.timeout := by
      simp only [effTimeoutSec]
      rw [if_neg (by omega)]
    have heffneg : effTimeoutSec (some it.timeout) * 1000 < 0 := by
      rw [heff]
      omega
    have hexecv : executeScript rt apiKey "perform_actions"
        { commands := some (jsTrim it.commands),
          starting_url := some it.startingUrl,
          headless := it.headless, timeout := some it.timeout } =
        .nodeError 0 (wrapMsg (rangeErrMsg (it.timeout * 1000))) false := by
      simp only [executeScript, execModel, heff]
      rw [if_pos (show it.timeout * 1000 < 0 by omega)]
    have hpi : processItem rt apiKey it =
        .thrown (wrapMsg (rangeErrMsg (it.timeout * 1000)))
          (invokeSpawns (effTimeoutSec (some it.timeout) * 1000)) := by
      simp only [processItem, hr, ho, String.reduceEq, reduceIte, if_neg hc,
        hexecv]
    have hsp0 : invokeSpawns (effTimeoutSec (some it.timeout) * 1000) = 0 := by
      simp [invokeSpawns, heffneg]
    rw [hsp0] at hpi
    exact ⟨hpi, by simp [itemSpawns, hpi]⟩

/-- Witness for the C10 theorem at a concrete item with timeout `0`: the
fallback yields the 300-second budget and the process is spawned. -/
theorem timeout_fallback_and_range_check_witness :
    effTimeoutSec none = 300 ∧
    effTimeoutSec (some 0) = 300 ∧
    ((0 : Int) ≤ 0 → itemSpawns rtOk "KEY" { commands := "go", timeout := 0 } = 1) ∧
    ((0 : Int) < 0 →
      processItem rtOk "KEY" { commands := "go", timeout := 0 } =
        .thrown (wrapMsg (rangeErrMsg (0 * 1000))) 0 ∧
      itemSpawns rtOk "KEY" { commands := "go", timeout := 0 } = 0) :=
  timeout_fallback_and_range_check rtOk "KEY" { commands := "go", timeout := 0 }
    rfl rfl (by decide)

/-- Helper lemma: with a positive budget, the exec model passes the option
validation and never hangs, every settled outcome's elapsed time is within
the budget, and an overrunning process is killed at the budget with a
rejection. -/
theorem execModel_within_budget (env : String → ProcBehavior) (cmd : String)
    (T : Int) (hT : 0 < T) :
    execModel env T cmd ≠ .hang ∧
    (∀ e out errText, execModel env T cmd = .resolved e out errText →
      (e : Int) ≤ T) ∧
    (∀ e m k, execModel env T cmd = .rejected e m k → (e : Int) ≤ T) ∧
    (overruns env cmd T →
      execModel env T cmd =
        .rejected T.toNat (cmdFailedMsg cmd (env cmd).stderr) true) ∧
    (∀ m, execModel env T cmd ≠ .rangeError m) := by
  have htn : ((T.toNat : Int)) = T := Int.toNat_of_nonneg hT.le
  have hTn : ¬ (T < 0) := by omega
  cases hr : (env cmd).runtime with
  | none =>
      have hval : execModel env T cmd =
          .rejected T.toNat (cmdFailedMsg cmd (env cmd).stderr) true := by
        simp [execModel, hr, hT, hTn]
      refine ⟨by rw [hval]; simp, ?_, ?_, fun _ => hval,
        fun m hcon => by rw [hval] at hcon; cases hcon⟩
      · intro e out errText h
        rw [hval] at h
        cases h
      · intro e m k h
        rw [hval] at h
        obtain ⟨rfl, -, -⟩ := by simpa [ExecOutcome.rejected.injEq] using h
        exact le_of_eq htn
  | some r =>
      by_cases hover : T < (r : Int)
      · have hval : execModel env T cmd =
            .rejected T.toNat (cmdFailedMsg cmd (env cmd).stderr) true := by
          simp [execModel, hr, hT, hTn, hover]
        refine ⟨by rw [hval]; simp, ?_, ?_, fun _ => hval,
          fun m hcon => by rw [hval] at hcon; cases hcon⟩
        · intro e out errText h
          rw [hval] at h
          cases h
        · intro e m k h
          rw [hval] at h
          obtain ⟨rfl, -, -⟩ := by simpa [ExecOutcome.rejected.injEq] using h
          exact le_of_eq htn
      · have hre : (r : Int) ≤ T := le_of_not_lt hover
        have hnov : ¬ overruns env cmd T := by
          simp only [overruns, hr]
          exact hover
        by_cases hz : (env cmd).exitCode = 0
        · have hval : execModel env T cmd =
              .resolved r (env cmd).stdout (env cmd).stderr := by
            simp [execModel, hr, hTn, hover, hz]
          refine ⟨by rw [hval]; simp, ?_, ?_, fun hcon => absurd hcon hnov,
            fun m hcon => by rw [hval] at hcon; cases hcon⟩
          · intro e out errText h
            rw [hval] at h
            obtain ⟨rfl, -, -⟩ := by simpa [ExecOutcome.resolved.injEq] using h
            exact hre
          · intro e m k h
            rw [hval] at h
            cases h
        · have hval : execModel env T cmd =
              .rejected r (cmdFailedMsg cmd (env cmd).stderr) false := by
            simp [execModel, hr, hTn, hover, hz]
          refine ⟨by rw [hval]; simp, ?_, ?_, fun hcon => absurd hcon hnov,
            fun m hcon => by rw [hval] at hcon; cases hcon⟩
          · intro e out errText h
            rw [hval] at h
            cases h
          · intro e m k h
            rw [hval] at h
            obtain ⟨rfl, -, -⟩ := by simpa [ExecOutcome.rejected.injEq] using h
            exact hre

/-- Helper lemma: when the awaited exec promise rejects, the helper throws a
`NodeOperationError` wrapping the rejection message. -/
theorem executeScript_of_rejected (rt : Runtime) (apiKey operation : String)
    (params : ScriptParams) (e : Nat) (m : String) (k : Bool)
    (h : execModel rt.env (effTimeoutSec params.timeout * 1000)
      (buildCommand rt apiKey operation params) = .rejected e m k) :
    executeScript rt apiKey operation params = .nodeError e (wrapMsg m) k := by
  unfold executeScript
  rw [h]

/-- Helper lemma: when the awaited exec promise never settles, the helper
never returns. -/
theorem executeScript_of_hang (rt : Runtime) (apiKey operation : String)
    (params : ScriptParams)
    (h : execModel rt.env (effTimeoutSec params.timeout * 1000)
      (buildCommand rt apiKey operation params) = .hang) :
    executeScript rt apiKey operation params = .hang := by
  unfold executeScript
  rw [h]

/-- Helper lemma: when the promise resolves and stderr is non-empty without
containing WARNING, the helper throws the script-error message. -/
theorem executeScript_of_stderr (rt : Runtime) (apiKey operation : String)
    (params : ScriptParams) (e : Nat) (out errText : String)
    (h : execModel rt.env (effTimeoutSec params.timeout * 1000)
      (buildCommand rt apiKey operation params) = .resolved e out errText)
    (hc : (errText != "" && !(jsIncludes errText "WARNING")) = true) :
    executeScript rt apiKey operation params =
      .nodeError e (wrapMsg ("Nova Act script error: " ++ errText)) false := by
  unfold executeScript
  rw [h]
  simp [hc]

/-- Helper lemma: when the promise resolves and the stderr check passes, the
helper returns the parsed stdout, or the raw-passthrough object when JSON
parsing fails. -/
theorem executeScript_of_clean (rt : Runtime) (apiKey operation : String)
    (params : ScriptParams) (e : Nat) (out errText : String)
    (h : execModel rt.env (effTimeoutSec params.timeout * 1000)
      (buildCommand rt apiKey operation params) = .resolved e out errText)
    (hc : (errText != "" && !(jsIncludes errText "WARNING")) = false) :
    executeScript rt apiKey operation params =
      (match rt.jsonParse (jsTrim out) with
       | some v => .ok e v
       | none => .ok e (JsVal.jobj
          [ ("stdout", .jstr (jsTrim out)),
            ("stderr", if errText = "" then .jnull else .jstr errText) ])) := by
  unfold executeScript
  rw [h]
  simp [hc]

/-- C1: for a request with a positive configured timeout, the invoker's
awaited call always settles, settles within `timeout * 1000` milliseconds,
and when the external process has not exited within the budget it is killed
(`killed = true`) and a failure is reported. -/
theorem invocation_bounded_by_timeout (rt : Runtime)
    (apiKey operation : String) (params : ScriptParams) (t : Int)
    (ht : params.timeout = some t) (hpos : 0 < t) :
    executeScript rt apiKey operation params ≠ .hang ∧
    (∀ e v, executeScript rt apiKey operation params = .ok e v →
      (e : Int) ≤ t * 1000) ∧
    (∀ e m k, executeScript rt apiKey operation params = .nodeError e m k →
      (e : Int) ≤ t * 1000) ∧
    (overruns rt.env (buildCommand rt apiKey operation params) (t * 1000) →
      ∃ m, executeScript rt apiKey operation params =
        .nodeError (t * 1000).toNat m true) := by
  have hT : (0 : Int) < t * 1000 := by omega
  have heff : effTimeoutSec params.timeout * 1000 = t * 1000 := by
    simp only [ht, effTimeoutSec]
    rw [if_neg (by omega)]
  obtain ⟨hnh, hres, hrej, hov, hnr⟩ :=
    execModel_within_budget rt.env (buildCommand rt apiKey operation params)
      (t * 1000) hT
  cases hm : execModel rt.env (t * 1000) (buildCommand rt apiKey operation params) with
  | hang => exact absurd hm hnh
  | rangeError m => exact absurd hm (hnr m)
  | resolved e out errText =>
      have he : (e : Int) ≤ t * 1000 := hres e out errText hm
      have hov2 : ¬ overruns rt.env (buildCommand rt apiKey operation params) (t * 1000) := by
        intro hcon
        have := hov hcon
        rw [hm] at this
        cases this
      by_cases hc : (errText != "" && !(jsIncludes errText "WARNING")) = true
      · have hval := executeScript_of_stderr rt apiKey operation params e out errText
          (by rw [heff]; exact hm) hc
        refine ⟨by rw [hval]; simp, ?_, ?_, fun hcon => absurd hcon hov2⟩
        · intro e2 v h
          rw [hval] at h
          cases h
        · intro e2 m2 k2 h
          rw [hval] at h
          obtain ⟨rfl, -, -⟩ := by simpa [ScriptResult.nodeError.injEq] using h
          exact he
      · have hval := executeScript_of_clean rt apiKey operation params e out errText
          (by rw [heff]; exact hm) (by simpa using hc)
        cases hp : rt.jsonParse (jsTrim out) with
        | some v =>
            rw [hp] at hval
            refine ⟨by rw [hval]; simp, ?_, ?_, fun hcon => absurd hcon hov2⟩
            · intro e2 v2 h
              rw [hval] at h
              obtain ⟨rfl, -⟩ := by simpa [ScriptResult.ok.injEq] using h
              exact he
            · intro e2 m2 k2 h
              rw [hval] at h
              cases h
        | none =>
            rw [hp] at hval
            refine ⟨by rw [hval]; simp, ?_, ?_, fun hcon => absurd hcon hov2⟩
            · intro e2 v2 h
              rw [hval] at h
              obtain ⟨rfl, -⟩ := by simpa [ScriptResult.ok.injEq] using h
              exact he
            · intro e2 m2 k2 h
              rw [hval] at h
              cases h
  | rejected e m k =>
      have he : (e : Int) ≤ t * 1000 := hrej e m k hm
      have hval := executeScript_of_rejected rt apiKey operation params e m k
        (by rw [heff]; exact hm)
      refine ⟨by rw [hval]; simp, ?_, ?_, ?_⟩
      · intro e2 v h
        rw [hval] at h
        cases h
      · intro e2 m2 k2 h
        rw [hval] at h
        obtain ⟨rfl, -, -⟩ := by simpa [ScriptResult.nodeError.injEq] using h
        exact he
      · intro hcon
        have hk := hov hcon
        rw [hm] at hk
        obtain ⟨h1, h2, h3⟩ := by simpa [ExecOutcome.rejected.injEq] using hk
        refine ⟨wrapMsg m, ?_⟩
        rw [hval, h1, h3]

/-- Witness for the C1 theorem: an engine process that never exits, with
timeout 2 seconds, is killed at 2000 milliseconds and a failure reported. -/
theorem invocation_bounded_by_timeout_witness :
    executeScript rtHangs "KEY" "perform_actions" { timeout := some 2 } ≠ .hang ∧
    (∀ e v, executeScript rtHangs "KEY" "perform_actions" { timeout := some 2 } = .ok e v →
      (e : Int) ≤ 2 * 1000) ∧
    (∀ e m k, executeScript rtHangs "KEY" "perform_actions" { timeout := some 2 } =
      .nodeError e m k → (e : Int) ≤ 2 * 1000) ∧
    (overruns rtHangs.env
        (buildCommand rtHangs "KEY" "perform_actions" { timeout := some 2 })
        (2 * 1000) →
      ∃ m, executeScript rtHangs "KEY" "perform_actions" { timeout := some 2 } =
        .nodeError ((2 : Int) * 1000).toNat m true) :=
  invocation_bounded_by_timeout rtHangs "KEY" "perform_actions"
    { timeout := some 2 } 2 rfl (by decide)

/-- Helper lemma: a handled item never takes the silent-skip branch. -/
theorem processItem_handled_ne_skip (rt : Runtime) (apiKey : String)
    (it : ItemParams) (hh : handledItem it) (n : Nat) :
    processItem rt apiKey it ≠ .skip n := by
  obtain ⟨hr, hop⟩ := hh
  rcases hop with ho | ho
  · simp only [processItem, hr, ho, String.reduceEq, reduceIte]
    split
    · simp
    · split <;> simp
  · simp only [processItem, hr, ho, String.reduceEq, reduceIte]
    split
    · simp
    · split
      · simp
      · split <;> simp

/-- Helper lemma: in continue mode, a batch whose items are all handled and
none of which hangs returns exactly one record per item, in input order. -/
theorem runItems_continue_eq_map (rt : Runtime) (apiKey : String)
    (items : List ItemParams)
    (hh : ∀ it ∈ items, handledItem it)
    (hnh : ∀ it ∈ items, ∀ n, processItem rt apiKey it ≠ .hang n) :
    runItems rt apiKey true items = .done (items.map (itemRecord rt apiKey)) := by
  induction items with
  | nil => rfl
  | cons it rest ih =>
      have h1 := hh it (List.mem_cons_self it rest)
      have ihh := ih (fun it2 h2 => hh it2 (List.mem_cons_of_mem it h2))
        (fun it2 h2 => hnh it2 (List.mem_cons_of_mem it h2))
      cases hp : processItem rt apiKey it with
      | hang n => exact absurd hp (hnh it (List.mem_cons_self it rest) n)
      | skip n => exact absurd hp (processItem_handled_ne_skip rt apiKey it h1 n)
      | push r n =>
          simp only [runItems, hp, ihh, consOut, List.map_cons, itemRecord]
      | thrown m n =>
          simp only [runItems, hp, ihh, consOut, List.map_cons, itemRecord,
            if_true]

/-- C2 counterexample: a one-item batch in continue mode whose item reaches
no handled branch yields an output sequence shorter than the input
sequence. -/
theorem continue_mode_length_mismatch :
    (runItems rtOk "KEY" true [itUnknownOp]).outputs.length ≠
      [itUnknownOp].length := by
  have h : (runItems rtOk "KEY" true [itUnknownOp]).outputs.length = 0 := rfl
  rw [h]
  decide

/-- C2 (amended): in continue mode, provided every item of the batch reaches
a handled branch (resource `browser`, operation `performActions` or
`extractData`) and no invocation hangs, the output sequence has exactly one
record per input item in input order, and an item whose processing throws
with message `m` yields the record `success = false, error = m`. -/
theorem continue_mode_output_aligned (rt : Runtime) (apiKey : String)
    (items : List ItemParams)
    (hh : ∀ it ∈ items, handledItem it)
    (hnh : ∀ it ∈ items, ∀ n, processItem rt apiKey it ≠ .hang n) :
    runItems rt apiKey true items = .done (items.map (itemRecord rt apiKey)) ∧
    (runItems rt apiKey true items).outputs.length = items.length ∧
    (∀ it ∈ items, ∀ m n, processItem rt apiKey it = .thrown m n →
      itemRecord rt apiKey it = { success := false, error := some m }) := by
  have hmain := runItems_continue_eq_map rt apiKey items hh hnh
  refine ⟨hmain, ?_, ?_⟩
  · rw [hmain]
    simp [BatchResult.outputs]
  · intro it _ m n hp
    simp [itemRecord, hp]

/-- Witness for the C2 theorem at a one-item batch whose invocation
succeeds. -/
theorem continue_mode_output_aligned_witness :
    runItems rtOk "KEY" true [itGo] = .done ([itGo].map (itemRecord rtOk "KEY")) ∧
    (runItems rtOk "KEY" true [itGo]).outputs.length = [itGo].length ∧
    (∀ it ∈ [itGo], ∀ m n, processItem rtOk "KEY" it = .thrown m n →
      itemRecord rtOk "KEY" it = { success := false, error := some m }) :=
  continue_mode_output_aligned rtOk "KEY" [itGo]
    (by
      intro it h
      rw [List.mem_singleton] at h
      subst h
      exact ⟨rfl, Or.inl rfl⟩)
    (by
      intro it h n hcon
      rw [List.mem_singleton] at h
      subst h
      have hx : processItem rtOk "KEY" itGo = ItemStep.push recGo 1 := rfl
      rw [hx] at hcon
      cases hcon)

/-- C3 counterexample: an extract-data invocation whose process exits zero
with unparseable stdout pushes a record in which the raw text
`garbage!!` appears nowhere: `extractedData` is replaced by the empty
object, so the raw text is silently dropped. -/
theorem raw_output_dropped_for_extract :
    processItem rtGarbage "KEY" itExtractX = .push recDropped 1 ∧
    (outStrings recDropped).all (fun s => !(jsIncludes s "garbage!!")) = true :=
  ⟨rfl, by decide⟩

/-- C3 (amended): the helper itself preserves unparseable stdout under a
`stdout` field, and a perform-actions invocation carries that raw text into
its output record's `result` field; only the extract-data record drops it. -/
theorem raw_preserved_for_perform (rt : Runtime) (apiKey : String)
    (it : ItemParams) (e : Nat) (out errText : String)
    (hr : it.resource = "browser") (ho : it.operation = "performActions")
    (hc : jsTrim it.commands ≠ "")
    (hexec : execModel rt.env (effTimeoutSec (some it.timeout) * 1000)
      (buildCommand rt apiKey "perform_actions"
        { commands := some (jsTrim it.commands),
          starting_url := some it.startingUrl,
          headless := it.headless, timeout := some it.timeout }) =
      .resolved e out errText)
    (hstderr : (errText != "" && !(jsIncludes errText "WARNING")) = false)
    (hparse : rt.jsonParse (jsTrim out) = none) :
    executeScript rt apiKey "perform_actions"
      { commands := some (jsTrim it.commands),
        starting_url := some it.startingUrl,
        headless := it.headless, timeout := some it.timeout } =
      .ok e (JsVal.jobj
        [ ("stdout", .jstr (jsTrim out)),
          ("stderr", if errText = "" then .jnull else .jstr errText) ]) ∧
    processItem rt apiKey it = .push
      { success := true, result := some (.jstr (jsTrim out)),
        screenshots := some (.jarr []),
        executedCommands := some (executedOf it.commands) } 1 := by
  have hval := executeScript_of_clean rt apiKey "perform_actions"
    { commands := some (jsTrim it.commands),
      starting_url := some it.startingUrl,
      headless := it.headless, timeout := some it.timeout } e out errText
    hexec hstderr
  rw [hparse] at hval
  have hnneg : ¬ (effTimeoutSec (some it.timeout) * 1000 < 0) := by
    intro hneg
    unfold execModel at hexec
    rw [if_pos hneg] at hexec
    cases hexec
  have hsp : invokeSpawns (effTimeoutSec (some it.timeout) * 1000) = 1 := by
    simp [invokeSpawns, hnneg]
  refine ⟨hval, ?_⟩
  simp only [processItem, hr, ho, String.reduceEq, reduceIte, if_neg hc, hval,
    hsp]
  rfl

/-- Witness for the C3 theorem: a perform-actions run whose engine writes
`garbage!!` to stdout with exit code zero. -/
theorem raw_preserved_for_perform_witness :
    executeScript rtGarbage "KEY" "perform_actions"
      { commands := some (jsTrim itGo.commands),
        starting_url := some itGo.startingUrl,
        headless := itGo.headless, timeout := some itGo.timeout } =
      .ok 5 (JsVal.jobj
        [ ("stdout", .jstr (jsTrim "garbage!!")),
          ("stderr", if ("" : String) = "" then .jnull else .jstr "") ]) ∧
    processItem rtGarbage "KEY" itGo = .push
      { success := true, result := some (.jstr (jsTrim "garbage!!")),
        screenshots := some (.jarr []),
        executedCommands := some (executedOf itGo.commands) } 1 :=
  raw_preserved_for_perform rtGarbage "KEY" itGo 5 "garbage!!" ""
    rfl rfl (by decide) rfl (by decide) rfl

/-- C4: the exec rejection error echoes the full command line, which embeds
the API key, and the node rethrows that text, so the secret
`SECRET_KEY_123` appears verbatim in the error message of a failed item. -/
theorem secret_in_error_message :
    processItem rtAuthFail "SECRET_KEY_123" itGo = .thrown leakMsg 1 ∧
    jsIncludes leakMsg "SECRET_KEY_123" = true :=
  ⟨rfl, by decide⟩

/-- C5: for the spec's round-trip success message the parsed value carries
`result = "ok"`, but the node assigns `result.stdout`, a property the parsed
message does not have, so the pushed record's `result` is `undefined`
instead of `"ok"`. -/
theorem roundtrip_result_undefined :
    parseFix okMsg = some okVal ∧
    getField okVal "result" = some (.jstr "ok") ∧
    processItem rtOk "KEY" itGo = .push recGo 1 ∧
    recGo.result = none ∧
    recGo.screenshots = some (.jarr []) :=
  ⟨rfl, rfl, rfl, rfl, rfl⟩

/-- C6 counterexample: with a parseable success message on stdout and the
non-WARNING line `deprecation notice` on stderr, the invocation fails:
stderr content alone causes the failure although a usable result exists. -/
theorem stderr_overrides_usable_result :
    parseFix (jsTrim okMsg) = some okVal ∧
    processItem rtNotice "KEY" itGo =
      .thrown (wrapMsg ("Nova Act script error: deprecation notice")) 1 :=
  ⟨rfl, rfl⟩

/-- C6 (amended): for a zero-exit process, failure is decided by stderr
alone, regardless of stdout: empty stderr or stderr containing WARNING
yields a returned value, and non-empty stderr without WARNING yields the
script-error failure even when stdout is usable. -/
theorem stderr_alone_decides_failure (rt : Runtime)
    (apiKey operation : String) (params : ScriptParams) (e : Nat)
    (out errText : String)
    (hexec : execModel rt.env (effTimeoutSec params.timeout * 1000)
      (buildCommand rt apiKey operation params) = .resolved e out errText) :
    ((errText = "" ∨ jsIncludes errText "WARNING" = true) →
      ∃ v, executeScript rt apiKey operation params = .ok e v) ∧
    ((errText ≠ "" ∧ jsIncludes errText "WARNING" = false) →
      executeScript rt apiKey operation params =
        .nodeError e (wrapMsg ("Nova Act script error: " ++ errText)) false) := by
  constructor
  · intro h
    have hc : (errText != "" && !(jsIncludes errText "WARNING")) = false := by
      rcases h with h | h <;> simp [h]
    have hval := executeScript_of_clean rt apiKey operation params e out errText
      hexec hc
    rw [hval]
    cases rt.jsonParse (jsTrim out) <;> exact ⟨_, rfl⟩
  · rintro ⟨h1, h2⟩
    have hc : (errText != "" && !(jsIncludes errText "WARNING")) = true := by
      simp [h1, h2]
    exact executeScript_of_stderr rt apiKey operation params e out errText
      hexec hc

/-- Witness for the C6 theorem at the `deprecation notice` fixture. -/
theorem stderr_alone_decides_failure_witness :
    ((("deprecation notice" : String) = "" ∨
        jsIncludes "deprecation notice" "WARNING" = true) →
      ∃ v, executeScript rtNotice "KEY" "perform_actions"
        { commands := some "go", starting_url := some "", headless := true,
          timeout := some 300 } = .ok 5 v) ∧
    ((("deprecation notice" : String) ≠ "" ∧
        jsIncludes "deprecation notice" "WARNING" = false) →
      executeScript rtNotice "KEY" "perform_actions"
        { commands := some "go", starting_url := some "", headless := true,
          timeout := some 300 } =
        .nodeError 5 (wrapMsg ("Nova Act script error: deprecation notice"))
          false) :=
  stderr_alone_decides_failure rtNotice "KEY" "perform_actions"
    { commands := some "go", starting_url := some "", headless := true,
      timeout := some 300 } 5 okMsg "deprecation notice" rfl

end NovaActSpec
